import Mathlib

/-!
Shallow embedding of the CMF Equipment Booking client (src/App.tsx).

Timestamps are modelled as `Int` (milliseconds). Store-assigned document
identifiers are modelled as `Nat`, drawn from a counter `nextId` in the
store. The Firestore handle `db` is modelled as a `Bool` (present or
absent), the authenticated user as an `Option String`. Each operation is
embedded as a pure function returning the post-state of the store, the
post-state of the `message` UI field, and a trace of the store effects it
issued (queries and writes), in issue order.
-/

namespace CMF

/-- Booking status enum from the `Booking` interface: `booked | cancelled`. -/
inductive Status where
  | booked
  | cancelled
  deriving DecidableEq, Repr

/-- The id-less payload written by `addDoc` in `submitBooking` (the
`bookingData` object, `Omit Booking id`). -/
structure BookingData where
  equipmentId : Nat
  equipmentName : String
  userId : String
  userDisplayName : String
  startDate : Int
  endDate : Int
  status : Status
  bookedAt : Int
  cancelledAt : Option Int
  deriving DecidableEq, Repr

/-- A stored booking document: the payload plus its store-assigned id. -/
structure Booking extends BookingData where
  id : Nat
  deriving DecidableEq, Repr

/-- An equipment document (`Equipment` interface). -/
structure Equipment where
  id : Nat
  name : String
  description : String
  createdAt : Option Int
  updatedAt : Option Int
  deriving DecidableEq, Repr

/-- The remote document store: the public equipment collection, the public
bookings collection, the per-user private bookings collections (tagged by
owner user id), and the counter from which fresh document ids are drawn. -/
structure Store where
  equipment : List Equipment
  publicBookings : List Booking
  privateBookings : List (String × Booking)
  nextId : Nat
  deriving DecidableEq, Repr

def emptyStore : Store := ⟨[], [], [], 0⟩

/-- Store effects issued by the operations, in issue order. -/
inductive Effect where
  | queryPublicBooked (equipmentId : Nat)
  | createPrivate (uid : String) (b : Booking)
  | createPublic (b : Booking)
  | queryPublicByKey (equipmentId : Nat) (uid : String) (bookedAt : Int)
  | updatePublicCancel (id : Nat) (now : Int)
  | updatePrivateCancel (uid : String) (id : Nat) (now : Int)
  | createEquipmentDoc (name : String) (description : String) (now : Int)
  | updateEquipmentDoc (id : Nat) (name : String) (description : String) (now : Int)
  | deleteEquipmentDoc (id : Nat)
  deriving DecidableEq, Repr

/-- The one-shot query in `submitBooking`:
`where equipmentId == selectedEquipment.id, where status == booked` over the
public bookings collection. -/
def bookedQuery (s : Store) (eqId : Nat) : List Booking :=
  s.publicBookings.filter (fun d => decide (d.equipmentId = eqId ∧ d.status = Status.booked))

/-- The `isBooked` scan of `submitBooking`: some fetched document satisfies
`startDateTime < d.endDate && endDateTime > d.startDate`. -/
def conflictExists (s : Store) (eqId : Nat) (startDateTime endDateTime : Int) : Bool :=
  (bookedQuery s eqId).any (fun d => decide (startDateTime < d.endDate ∧ endDateTime > d.startDate))

/-- Result of `submitBooking`: post-store, post-`message`, effect trace. -/
structure SubmitOut where
  store : Store
  message : String
  trace : List Effect
  deriving DecidableEq, Repr

/-- Embedding of `submitBooking` (App.tsx lines 200-234).

`now` is the `new Date()` taken for the past-start check; `nowB` is the
`Timestamp.now()` taken as `bookedAt` when the payload is built (two
distinct clock reads in the source). `msg0` is the `message` state on
entry; the guard path leaves it untouched, a validation or conflict
failure replaces it, and the success path clears it via
`closeBookingModal`. -/
def submitBooking (selectedEquipment : Option Equipment) (db : Bool) (userId : Option String)
    (userDisplayName : String) (startDateTime endDateTime now nowB : Int)
    (msg0 : String) (s : Store) : SubmitOut :=
  match selectedEquipment, db, userId with
  | some eqp, true, some uid =>
    if startDateTime ≥ endDateTime then
      ⟨s, "End time must be after start time.", []⟩
    else if startDateTime < now then
      ⟨s, "Booking start time cannot be in the past.", []⟩
    else if conflictExists s eqp.id startDateTime endDateTime then
      ⟨s, "This equipment is already booked for this time slot.", [.queryPublicBooked eqp.id]⟩
    else
      let bookingData : BookingData :=
        { equipmentId := eqp.id
          equipmentName := eqp.name
          userId := uid
          userDisplayName := userDisplayName
          startDate := startDateTime
          endDate := endDateTime
          status := Status.booked
          bookedAt := nowB
          cancelledAt := none }
      let privBooking : Booking := ⟨bookingData, s.nextId⟩
      let pubBooking : Booking := ⟨bookingData, s.nextId + 1⟩
      ⟨{ s with
          privateBookings := s.privateBookings ++ [(uid, privBooking)]
          publicBookings := s.publicBookings ++ [pubBooking]
          nextId := s.nextId + 2 },
        "",
        [.queryPublicBooked eqp.id, .createPrivate uid privBooking, .createPublic pubBooking]⟩
  | _, _, _ => ⟨s, msg0, []⟩

/-- The correlation-key filter of `cancelBooking`:
`where equipmentId == b.equipmentId, where userId == userId (current),
where bookedAt == b.bookedAt`. -/
def cancelKeyMatch (b : Booking) (uid : String) (d : Booking) : Bool :=
  decide (d.equipmentId = b.equipmentId ∧ d.userId = uid ∧ d.bookedAt = b.bookedAt)

/-- Result of `cancelBooking`: post-store, post-`message`, effect trace, and
whether the awaited private `updateDoc` rejected (it does in Firestore when
no private document with the given id exists; `cancelBooking` has no
try/catch, so that rejection escapes). -/
structure CancelOut where
  store : Store
  message : String
  trace : List Effect
  threw : Bool
  deriving DecidableEq, Repr

/-- Embedding of `cancelBooking` (App.tsx lines 236-243).

The public matches are updated first (the un-awaited `forEach` of
`updateDoc`), each to `status = cancelled, cancelledAt = nowPub`; then the
private copy addressed by `bookingToCancel.id` is updated to
`status = cancelled, cancelledAt = nowPriv` (a separate `Timestamp.now()`
read). On success `closeCancelModal` clears `message`. -/
def cancelBooking (bookingToCancel : Option Booking) (db : Bool) (userId : Option String)
    (nowPub nowPriv : Int) (msg0 : String) (s : Store) : CancelOut :=
  match bookingToCancel, db, userId with
  | some b, true, some uid =>
    let snapshot := s.publicBookings.filter (cancelKeyMatch b uid)
    let s1 : Store := { s with
      publicBookings := s.publicBookings.map (fun d =>
        if cancelKeyMatch b uid d then
          { d with status := Status.cancelled, cancelledAt := some nowPub }
        else d) }
    let pubTrace := snapshot.map (fun d => Effect.updatePublicCancel d.id nowPub)
    if s1.privateBookings.any (fun p => decide (p.1 = uid ∧ p.2.id = b.id)) then
      let s2 : Store := { s1 with
        privateBookings := s1.privateBookings.map (fun p =>
          if decide (p.1 = uid ∧ p.2.id = b.id) then
            (p.1, { p.2 with status := Status.cancelled, cancelledAt := some nowPriv })
          else p) }
      ⟨s2, "",
        Effect.queryPublicByKey b.equipmentId uid b.bookedAt ::
          (pubTrace ++ [Effect.updatePrivateCancel uid b.id nowPriv]), false⟩
    else
      ⟨s1, msg0,
        Effect.queryPublicByKey b.equipmentId uid b.bookedAt ::
          (pubTrace ++ [Effect.updatePrivateCancel uid b.id nowPriv]), true⟩
  | _, _, _ => ⟨s, msg0, [], false⟩

/-- Result of an equipment-catalog operation. -/
structure EquipOut where
  store : Store
  message : String
  trace : List Effect
  deriving DecidableEq, Repr

/-- Embedding of `addEquipment` (App.tsx lines 247-259): the guard
`!db || !isAdmin || !equipmentForm.name || !equipmentForm.description`
aborts with the fill-out message before any write; otherwise one equipment
document `{ name, description, createdAt: now }` is created and `message`
is cleared. -/
def addEquipment (db isAdmin : Bool) (formName formDescription : String) (now : Int)
    (msg0 : String) (s : Store) : EquipOut :=
  if ¬ db ∨ ¬ isAdmin ∨ formName = "" ∨ formDescription = "" then
    ⟨s, "Please fill out all fields.", []⟩
  else
    ⟨{ s with
        equipment := s.equipment ++
          [{ id := s.nextId, name := formName, description := formDescription,
             createdAt := some now, updatedAt := none }]
        nextId := s.nextId + 1 },
      "", [.createEquipmentDoc formName formDescription now]⟩

/-- Embedding of `updateEquipment` (App.tsx lines 262-272): the guard
`!db || !isAdmin || !equipmentToEdit` returns silently; otherwise
`updateDoc` rewrites `name`/`description` from the form (with no emptiness
check) and sets `updatedAt`. Firestore `updateDoc` rejects when the
addressed document is absent; the catch branch then sets a failure
message and no write lands. -/
def updateEquipment (db isAdmin : Bool) (equipmentToEdit : Option Equipment)
    (formName formDescription : String) (now : Int) (msg0 : String) (s : Store) : EquipOut :=
  match equipmentToEdit, db, isAdmin with
  | some e, true, true =>
    if s.equipment.any (fun x => decide (x.id = e.id)) then
      ⟨{ s with
          equipment := s.equipment.map (fun x =>
            if x.id = e.id then
              { x with name := formName, description := formDescription, updatedAt := some now }
            else x) },
        "", [.updateEquipmentDoc e.id formName formDescription now]⟩
    else
      ⟨s, "Failed to update equipment.", []⟩
  | _, _, _ => ⟨s, msg0, []⟩

/-- Embedding of `deleteEquipment` (App.tsx lines 275-283): the guard
`!db || !isAdmin || !equipmentToDelete` returns silently; otherwise the
document is deleted (Firestore `deleteDoc` succeeds also when the document
is already absent). -/
def deleteEquipment (db isAdmin : Bool) (equipmentToDelete : Option Equipment)
    (msg0 : String) (s : Store) : EquipOut :=
  match equipmentToDelete, db, isAdmin with
  | some e, true, true =>
    ⟨{ s with equipment := s.equipment.filter (fun x => decide (¬ x.id = e.id)) },
      "", [.deleteEquipmentDoc e.id]⟩
  | _, _, _ => ⟨s, msg0, []⟩

/-- The Firebase connection parameters read from the environment
(App.tsx lines 34-42); a missing variable is modelled as `""`. -/
structure FirebaseConfig where
  apiKey : String
  authDomain : String
  projectId : String
  storageBucket : String
  messagingSenderId : String
  appId : String
  measurementId : String
  deriving DecidableEq, Repr

/-- Observable outcome of the mount effect (App.tsx lines 122-141):
whether the incomplete-configuration error was logged, whether the
Firestore and Auth handles were set, the `isAuthReady` flag as left by the
effect body (the configured branch leaves it to the auth callback), and
whether the effect threw. -/
structure InitOutcome where
  loggedConfigError : Bool
  db : Bool
  authInited : Bool
  isAuthReady : Bool
  threw : Bool
  deriving DecidableEq, Repr

/-- Embedding of the mount effect: only `firebaseConfig.apiKey` is tested;
when it is falsy the error is logged, `isAuthReady` is set and the effect
returns with no handles set; otherwise the handles are initialized. -/
def initEffect (cfg : FirebaseConfig) : InitOutcome :=
  if cfg.apiKey = "" then ⟨true, false, false, true, false⟩
  else ⟨false, true, true, false, false⟩

/-- The client-side React state the embedded operations read and write. -/
structure AppState where
  db : Bool
  isAdmin : Bool
  showAdminPanel : Bool
  userId : Option String
  userDisplayName : String
  message : String
  store : Store
  deriving DecidableEq, Repr

/-- The state after the mount effect: `db` present iff configured,
`isAdmin` initialized to `useState(true)`, no user signed in yet. -/
def initAppState (configured : Bool) : AppState :=
  { db := configured, isAdmin := true, showAdminPanel := false, userId := none,
    userDisplayName := "", message := "", store := emptyStore }

def startState (cfg : FirebaseConfig) : AppState :=
  initAppState (initEffect cfg).db

/-- The user-triggerable operations of the app: the two booking operations,
the three equipment-catalog operations, the Ctrl/Cmd-Shift-A admin-panel
toggle, and an `onAuthStateChanged` callback delivery. -/
inductive Op where
  | submit (selectedEquipment : Option Equipment) (startDateTime endDateTime now nowB : Int)
  | cancel (bookingToCancel : Option Booking) (nowPub nowPriv : Int)
  | addEquip (formName formDescription : String) (now : Int)
  | updateEquip (equipmentToEdit : Option Equipment) (formName formDescription : String) (now : Int)
  | deleteEquip (equipmentToDelete : Option Equipment)
  | toggleAdminPanel
  | authChange (user : Option (String × String))

def applyOp (op : Op) (s : AppState) : AppState :=
  match op with
  | .submit sel st en now nowB =>
    let out := submitBooking sel s.db s.userId s.userDisplayName st en now nowB s.message s.store
    { s with store := out.store, message := out.message }
  | .cancel b nowPub nowPriv =>
    let out := cancelBooking b s.db s.userId nowPub nowPriv s.message s.store
    { s with store := out.store, message := out.message }
  | .addEquip n d now =>
    let out := addEquipment s.db s.isAdmin n d now s.message s.store
    { s with store := out.store, message := out.message }
  | .updateEquip e n d now =>
    let out := updateEquipment s.db s.isAdmin e n d now s.message s.store
    { s with store := out.store, message := out.message }
  | .deleteEquip e =>
    let out := deleteEquipment s.db s.isAdmin e s.message s.store
    { s with store := out.store, message := out.message }
  | .toggleAdminPanel =>
    if s.isAdmin then { s with showAdminPanel := !s.showAdminPanel } else s
  | .authChange u =>
    match u with
    | some (uid, name) => { s with userId := some uid, userDisplayName := name }
    | none => { s with userId := none, userDisplayName := "" }

/-- States reachable by any sequence of operations from the post-mount
state (configured or not). -/
inductive Reachable : AppState → Prop where
  | init (configured : Bool) : Reachable (initAppState configured)
  | step {s : AppState} (op : Op) : Reachable s → Reachable (applyOp op s)

/-- The arguments of one `submitBooking` invocation. -/
structure SubmitArgs where
  selectedEquipment : Option Equipment
  db : Bool
  userId : Option String
  userDisplayName : String
  startDateTime : Int
  endDateTime : Int
  now : Int
  nowB : Int
  msg0 : String
  deriving Repr

/-- A sequence of `submitBooking` calls run to completion one after the
other over the store. -/
def submitSeq (argsList : List SubmitArgs) (s : Store) : Store :=
  argsList.foldl
    (fun st a =>
      (submitBooking a.selectedEquipment a.db a.userId a.userDisplayName
        a.startDateTime a.endDateTime a.now a.nowB a.msg0 st).store)
    s

/-- Half-open interval intersection between two bookings, as the spec
states it. -/
def Overlaps (a b : Booking) : Prop :=
  a.startDate < b.endDate ∧ a.endDate > b.startDate

instance (a b : Booking) : Decidable (Overlaps a b) := by
  unfold Overlaps; infer_instance

/-- The no-double-booking invariant: distinct `booked` bookings on the same
equipment never overlap. -/
def NoOverlapInv (l : List Booking) : Prop :=
  ∀ a ∈ l, ∀ b ∈ l, a ≠ b → a.equipmentId = b.equipmentId →
    a.status = Status.booked → b.status = Status.booked → ¬ Overlaps a b

instance (l : List Booking) : Decidable (NoOverlapInv l) := by
  unfold NoOverlapInv; infer_instance

/-- C2: the conflict check in `submitBooking` considers only `booked`
bookings for the candidate equipment and rejects iff one of them satisfies
`candidate.start < existing.end ∧ candidate.end > existing.start`; an
existing booking the candidate merely touches or avoids never triggers
rejection. -/
theorem conflict_check_characterization (s : Store) (eqId : Nat) (st en : Int) :
    (conflictExists s eqId st en = true ↔
      ∃ d ∈ s.publicBookings, d.equipmentId = eqId ∧ d.status = Status.booked ∧
        st < d.endDate ∧ en > d.startDate) ∧
    ((∀ d ∈ s.publicBookings, d.equipmentId = eqId → d.status = Status.booked →
        st = d.endDate ∨ en = d.startDate ∨ d.endDate ≤ st ∨ en ≤ d.startDate) →
      conflictExists s eqId st en = false) := by
  constructor
  · simp only [conflictExists, bookedQuery, List.any_eq_true, List.mem_filter,
      decide_eq_true_eq]
    constructor
    · rintro ⟨d, ⟨hd, heq, hst⟩, hov⟩
      exact ⟨d, hd, heq, hst, hov⟩
    · rintro ⟨d, hd, heq, hst, hov⟩
      exact ⟨d, ⟨hd, heq, hst⟩, hov⟩
  · intro h
    simp only [conflictExists, bookedQuery, List.any_eq_false, List.mem_filter,
      decide_eq_true_eq]
    rintro d ⟨hd, heq, hst⟩ ⟨h1, h2⟩
    rcases h d hd heq hst with h3 | h3 | h3 | h3 <;> omega

/-- C2 witness: on a store holding one booked `[100, 200)` booking for
equipment 0, a touching candidate `[200, 300)` is approved and an
overlapping candidate `[150, 250)` is rejected. -/
theorem conflict_check_characterization_witness :
    conflictExists
        ⟨[], [⟨⟨0, "Laser", "u", "U", 100, 200, Status.booked, 0, none⟩, 7⟩], [], 8⟩
        0 200 300 = false ∧
    conflictExists
        ⟨[], [⟨⟨0, "Laser", "u", "U", 100, 200, Status.booked, 0, none⟩, 7⟩], [], 8⟩
        0 150 250 = true := by
  constructor
  · exact (conflict_check_characterization
      ⟨[], [⟨⟨0, "Laser", "u", "U", 100, 200, Status.booked, 0, none⟩, 7⟩], [], 8⟩
      0 200 300).2 (by decide)
  · exact (conflict_check_characterization
      ⟨[], [⟨⟨0, "Laser", "u", "U", 100, 200, Status.booked, 0, none⟩, 7⟩], [], 8⟩
      0 150 250).1.mpr
      ⟨⟨⟨0, "Laser", "u", "U", 100, 200, Status.booked, 0, none⟩, 7⟩,
        by decide, by decide, by decide, by decide, by decide⟩

/-- C3: with an equipment selected, a store handle and a signed-in user, a
candidate with `endDate ≤ startDate` or with `startDate` before now is
rejected with one of the two validation messages, the store is unchanged,
and no effect (neither the conflict query nor any write) is issued. -/
theorem submit_validation_rejects (eqp : Equipment) (uid udn : String)
    (st en now nowB : Int) (msg0 : String) (s : Store)
    (h : en ≤ st ∨ st < now) :
    (submitBooking (some eqp) true (some uid) udn st en now nowB msg0 s).store = s ∧
    (submitBooking (some eqp) true (some uid) udn st en now nowB msg0 s).trace = [] ∧
    ((submitBooking (some eqp) true (some uid) udn st en now nowB msg0 s).message =
        "End time must be after start time." ∨
      (submitBooking (some eqp) true (some uid) udn st en now nowB msg0 s).message =
        "Booking start time cannot be in the past.") := by
  by_cases h1 : st ≥ en
  · simp [submitBooking, h1]
  · have h2 : st < now := by omega
    have h3 : ¬ st ≥ en := h1
    simp [submitBooking, h3, h2]

/-- C3 witness: a zero-length candidate (`start = end = 5`) is rejected
with the stored state untouched and no store effect issued. -/
theorem submit_validation_rejects_witness :
    ((5 : Int) ≤ 5 ∨ (5 : Int) < 0) ∧
    ((submitBooking (some ⟨0, "Laser", "d", none, none⟩) true (some "u") "U"
        5 5 0 0 "" emptyStore).store = emptyStore ∧
      (submitBooking (some ⟨0, "Laser", "d", none, none⟩) true (some "u") "U"
        5 5 0 0 "" emptyStore).trace = [] ∧
      ((submitBooking (some ⟨0, "Laser", "d", none, none⟩) true (some "u") "U"
          5 5 0 0 "" emptyStore).message = "End time must be after start time." ∨
        (submitBooking (some ⟨0, "Laser", "d", none, none⟩) true (some "u") "U"
          5 5 0 0 "" emptyStore).message = "Booking start time cannot be in the past.")) :=
  ⟨Or.inl (by decide),
    submit_validation_rejects ⟨0, "Laser", "d", none, none⟩ "u" "U" 5 5 0 0 "" emptyStore
      (Or.inl (by decide))⟩

/-- C10: with no signed-in user or no store handle, `submitBooking` and
`cancelBooking` return immediately: the store is unchanged, the `message`
field keeps its previous value, and no query or write effect is issued. -/
theorem signedout_or_nodb_noop (sel : Option Equipment) (b : Option Booking) (db : Bool)
    (userId : Option String) (udn : String) (st en now nowB nowPub nowPriv : Int)
    (msg0 : String) (s : Store)
    (h : userId = none ∨ db = false) :
    submitBooking sel db userId udn st en now nowB msg0 s = ⟨s, msg0, []⟩ ∧
    cancelBooking b db userId nowPub nowPriv msg0 s = ⟨s, msg0, [], false⟩ := by
  rcases h with h | h
  · subst h
    cases sel <;> cases db <;> cases b <;> exact ⟨rfl, rfl⟩
  · subst h
    cases sel <;> cases userId <;> cases b <;> exact ⟨rfl, rfl⟩

/-- C10 witness: with a store handle but no signed-in user, both
operations are exact no-ops on a concrete nonempty store. -/
theorem signedout_or_nodb_noop_witness :
    ((none : Option String) = none ∨ true = false) ∧
    (submitBooking (some ⟨0, "Laser", "d", none, none⟩) true none "U" 10 20 0 0 "old"
        ⟨[⟨0, "Laser", "d", none, none⟩], [], [], 1⟩ =
      ⟨⟨[⟨0, "Laser", "d", none, none⟩], [], [], 1⟩, "old", []⟩ ∧
      cancelBooking none true none 3 4 "old" ⟨[⟨0, "Laser", "d", none, none⟩], [], [], 1⟩ =
        ⟨⟨[⟨0, "Laser", "d", none, none⟩], [], [], 1⟩, "old", [], false⟩) :=
  ⟨Or.inl rfl,
    signedout_or_nodb_noop (some ⟨0, "Laser", "d", none, none⟩) none true none "U"
      10 20 0 0 3 4 "old" ⟨[⟨0, "Laser", "d", none, none⟩], [], [], 1⟩ (Or.inl rfl)⟩

/-- C4: when the guards and validations pass and the conflict check finds
no overlap, `submitBooking` issues the conflict query, then the private
create, then the public create; the two created documents carry the same
payload (equipment id and denormalized name, user id and display name,
start, end, `status = booked`, `bookedAt` = the creation-time clock read)
and differ only in their independently assigned ids; the message is
cleared. -/
theorem submit_approved_dual_write (eqp : Equipment) (uid udn : String)
    (st en now nowB : Int) (msg0 : String) (s : Store)
    (h1 : st < en) (h2 : now ≤ st)
    (h3 : conflictExists s eqp.id st en = false) :
    submitBooking (some eqp) true (some uid) udn st en now nowB msg0 s =
      ⟨{ s with
          privateBookings := s.privateBookings ++
            [(uid, ⟨⟨eqp.id, eqp.name, uid, udn, st, en, Status.booked, nowB, none⟩, s.nextId⟩)]
          publicBookings := s.publicBookings ++
            [⟨⟨eqp.id, eqp.name, uid, udn, st, en, Status.booked, nowB, none⟩, s.nextId + 1⟩]
          nextId := s.nextId + 2 },
        "",
        [Effect.queryPublicBooked eqp.id,
         Effect.createPrivate uid
           ⟨⟨eqp.id, eqp.name, uid, udn, st, en, Status.booked, nowB, none⟩, s.nextId⟩,
         Effect.createPublic
           ⟨⟨eqp.id, eqp.name, uid, udn, st, en, Status.booked, nowB, none⟩, s.nextId + 1⟩]⟩ ∧
    (Booking.mk ⟨eqp.id, eqp.name, uid, udn, st, en, Status.booked, nowB, none⟩
        s.nextId).toBookingData =
      (Booking.mk ⟨eqp.id, eqp.name, uid, udn, st, en, Status.booked, nowB, none⟩
        (s.nextId + 1)).toBookingData ∧
    s.nextId ≠ s.nextId + 1 := by
  refine ⟨?_, rfl, by omega⟩
  have h4 : ¬ st ≥ en := by omega
  have h5 : ¬ st < now := by omega
  simp [submitBooking, h4, h5, h3]

/-- C4 witness: a concrete approved submission on the empty store creates
the private copy (id 0) and then the public copy (id 1) of the same
payload. -/
theorem submit_approved_dual_write_witness :
    ((10 : Int) < 20 ∧ (0 : Int) ≤ 10 ∧ conflictExists emptyStore 0 10 20 = false) ∧
    submitBooking (some ⟨0, "Laser", "d", none, none⟩) true (some "u") "U"
        10 20 0 5 "old" emptyStore =
      ⟨⟨[], [⟨⟨0, "Laser", "u", "U", 10, 20, Status.booked, 5, none⟩, 1⟩],
          [("u", ⟨⟨0, "Laser", "u", "U", 10, 20, Status.booked, 5, none⟩, 0⟩)], 2⟩,
        "",
        [Effect.queryPublicBooked 0,
         Effect.createPrivate "u" ⟨⟨0, "Laser", "u", "U", 10, 20, Status.booked, 5, none⟩, 0⟩,
         Effect.createPublic ⟨⟨0, "Laser", "u", "U", 10, 20, Status.booked, 5, none⟩, 1⟩]⟩ :=
  ⟨⟨by decide, by decide, by decide⟩,
    ((submit_approved_dual_write ⟨0, "Laser", "d", none, none⟩ "u" "U" 10 20 0 5 "old"
      emptyStore (by decide) (by decide) (by decide)).1).trans (by decide)⟩

/-- C7 counterexample: `updateEquipment` with both form fields empty, on a
store holding the target document, issues the update write (the stored
document now has empty name and description) and displays no message —
the claimed validation abort does not happen on the update path. -/
theorem equipment_update_empty_fields_counterexample :
    (updateEquipment true true (some ⟨0, "Laser", "cuts", some 0, none⟩) "" "" 5 ""
        ⟨[⟨0, "Laser", "cuts", some 0, none⟩], [], [], 1⟩).trace =
      [Effect.updateEquipmentDoc 0 "" "" 5] ∧
    (updateEquipment true true (some ⟨0, "Laser", "cuts", some 0, none⟩) "" "" 5 ""
        ⟨[⟨0, "Laser", "cuts", some 0, none⟩], [], [], 1⟩).store.equipment =
      [⟨0, "", "", some 0, some 5⟩] ∧
    (updateEquipment true true (some ⟨0, "Laser", "cuts", some 0, none⟩) "" "" 5 ""
        ⟨[⟨0, "Laser", "cuts", some 0, none⟩], [], [], 1⟩).message = "" := by
  decide

/-- C7 amended: only equipment create validates the form: with an empty
name or description, `addEquipment` displays the fill-out message and
issues no write; with non-empty fields it creates the document with
`createdAt`. `updateEquipment` performs no emptiness validation: with a
store handle, the admin flag and an existing target it always issues the
update write, rewriting `name`/`description` to the form values (even
empty) and setting `updatedAt`. -/
theorem equipment_validation_create_only (db isAdmin : Bool) (n d : String) (now : Int)
    (m : String) (s : Store) (e : Equipment) :
    ((n = "" ∨ d = "") → addEquipment db isAdmin n d now m s =
      ⟨s, "Please fill out all fields.", []⟩) ∧
    (n ≠ "" → d ≠ "" → addEquipment true true n d now m s =
      ⟨{ s with
          equipment := s.equipment ++ [⟨s.nextId, n, d, some now, none⟩],
          nextId := s.nextId + 1 },
        "", [Effect.createEquipmentDoc n d now]⟩) ∧
    ((∃ x ∈ s.equipment, x.id = e.id) →
      (updateEquipment true true (some e) n d now m s).trace =
        [Effect.updateEquipmentDoc e.id n d now] ∧
      (updateEquipment true true (some e) n d now m s).message = "" ∧
      ∀ x ∈ s.equipment, x.id = e.id →
        { x with name := n, description := d, updatedAt := some now } ∈
          (updateEquipment true true (some e) n d now m s).store.equipment) := by
  refine ⟨?_, ?_, ?_⟩
  · rintro (h | h) <;> simp [addEquipment, h]
  · intro hn hd
    simp [addEquipment, hn, hd]
  · intro hex
    have hany : s.equipment.any (fun x => decide (x.id = e.id)) = true := by
      rcases hex with ⟨x, hx, hid⟩
      exact List.any_eq_true.mpr ⟨x, hx, by simp [hid]⟩
    refine ⟨by simp [updateEquipment, hany], by simp [updateEquipment, hany], ?_⟩
    intro x hx hid
    simp only [updateEquipment, hany, if_true]
    exact List.mem_map.mpr ⟨x, hx, by simp [hid]⟩

/-- C7 witness: create with an empty description aborts with the fill-out
message; create with filled fields writes the document; update on an
existing document rewrites its fields. -/
theorem equipment_validation_create_only_witness :
    (addEquipment true true "Laser" "" 3 "" emptyStore =
      ⟨emptyStore, "Please fill out all fields.", []⟩) ∧
    (addEquipment true true "Laser" "cuts" 3 "" emptyStore =
      ⟨⟨[⟨0, "Laser", "cuts", some 3, none⟩], [], [], 1⟩, "",
        [Effect.createEquipmentDoc "Laser" "cuts" 3]⟩) ∧
    (⟨0, "Mill", "drills", some 0, some 9⟩ : Equipment) ∈
      (updateEquipment true true (some ⟨0, "Laser", "cuts", some 0, none⟩) "Mill" "drills" 9 ""
        ⟨[⟨0, "Laser", "cuts", some 0, none⟩], [], [], 1⟩).store.equipment := by
  refine ⟨?_, ?_, ?_⟩
  · exact ((equipment_validation_create_only true true "Laser" "" 3 "" emptyStore
      ⟨0, "Laser", "cuts", some 0, none⟩).1 (Or.inr rfl)).trans (by decide)
  · exact ((equipment_validation_create_only true true "Laser" "cuts" 3 "" emptyStore
      ⟨0, "Laser", "cuts", some 0, none⟩).2.1 (by decide) (by decide)).trans (by decide)
  · exact ((equipment_validation_create_only true true "Mill" "drills" 9 ""
      ⟨[⟨0, "Laser", "cuts", some 0, none⟩], [], [], 1⟩
      ⟨0, "Laser", "cuts", some 0, none⟩).2.2
      ⟨⟨0, "Laser", "cuts", some 0, none⟩, by decide, rfl⟩).2.2
      ⟨0, "Laser", "cuts", some 0, none⟩ (by decide) rfl

theorem applyOp_isAdmin (op : Op) (s : AppState) : (applyOp op s).isAdmin = s.isAdmin := by
  cases op with
  | toggleAdminPanel =>
    simp only [applyOp]
    split <;> rfl
  | authChange u => rcases u with _ | ⟨uid, name⟩ <;> rfl
  | _ => rfl

theorem applyOp_db (op : Op) (s : AppState) : (applyOp op s).db = s.db := by
  cases op with
  | toggleAdminPanel =>
    simp only [applyOp]
    split <;> rfl
  | authChange u => rcases u with _ | ⟨uid, name⟩ <;> rfl
  | _ => rfl

theorem reachable_isAdmin {s : AppState} (h : Reachable s) : s.isAdmin = true := by
  induction h with
  | init c => rfl
  | step op h ih => rw [applyOp_isAdmin]; exact ih

/-- C8: `isAdmin` starts out `true` and no operation ever writes it, so
every reachable state grants administrator capability, and replacing the
flag read by the equipment operations with the constant `true` changes
nothing: the admin check can never make them abort. -/
theorem admin_flag_constant_true (s : AppState) (h : Reachable s) :
    (∀ c, (initAppState c).isAdmin = true) ∧
    s.isAdmin = true ∧
    (∀ op, (applyOp op s).isAdmin = s.isAdmin) ∧
    (∀ n d now m st, addEquipment s.db s.isAdmin n d now m st =
      addEquipment s.db true n d now m st) ∧
    (∀ e n d now m st, updateEquipment s.db s.isAdmin e n d now m st =
      updateEquipment s.db true e n d now m st) ∧
    (∀ e m st, deleteEquipment s.db s.isAdmin e m st =
      deleteEquipment s.db true e m st) := by
  have ha : s.isAdmin = true := reachable_isAdmin h
  exact ⟨fun c => rfl, ha, fun op => applyOp_isAdmin op s,
    fun n d now m st => by rw [ha],
    fun e n d now m st => by rw [ha],
    fun e m st => by rw [ha]⟩

/-- C8 witness: instantiated at a reachable state, one operation deep from
the configured start state. -/
theorem admin_flag_constant_true_witness :
    (applyOp Op.toggleAdminPanel (initAppState true)).isAdmin = true :=
  (admin_flag_constant_true (applyOp Op.toggleAdminPanel (initAppState true))
    (Reachable.step Op.toggleAdminPanel (Reachable.init true))).2.1

/-- C9 counterexample: the mount effect tests only the API key. With the
API key present but the project identifier (a required backend parameter)
absent, the incomplete-configuration error is not logged and
initialization proceeds as if configured — the absence is not detected. -/
theorem config_check_only_apikey_counterexample :
    (⟨"AIzaKey", "", "", "", "", "app1", ""⟩ : FirebaseConfig).projectId = "" ∧
    (initEffect ⟨"AIzaKey", "", "", "", "", "app1", ""⟩).loggedConfigError = false ∧
    (initEffect ⟨"AIzaKey", "", "", "", "", "app1", ""⟩).db = true := by
  decide

/-- C9 amended: only the API key is tested at startup. When it is absent
the mount effect logs the configuration error and returns without
throwing and without initializing the store or auth handles, and no
operation ever sets the store handle afterwards, so the app stays
permanently in the not-configured state. Absence of the other
configuration parameters is not itself detected. -/
theorem config_missing_apikey_degrades (cfg : FirebaseConfig) (h : cfg.apiKey = "") :
    initEffect cfg = ⟨true, false, false, true, false⟩ ∧
    (startState cfg).db = false ∧
    (∀ op s, (applyOp op s).db = s.db) := by
  refine ⟨by simp [initEffect, h], by simp [startState, initEffect, h, initAppState], applyOp_db⟩

/-- C9 witness: the all-empty configuration is detected and degrades. -/
theorem config_missing_apikey_degrades_witness :
    (⟨"", "", "", "", "", "", ""⟩ : FirebaseConfig).apiKey = "" ∧
    initEffect ⟨"", "", "", "", "", "", ""⟩ = ⟨true, false, false, true, false⟩ ∧
    (startState ⟨"", "", "", "", "", "", ""⟩).db = false :=
  ⟨rfl,
    (config_missing_apikey_degrades ⟨"", "", "", "", "", "", ""⟩ rfl).1,
    (config_missing_apikey_degrades ⟨"", "", "", "", "", "", ""⟩ rfl).2.1⟩

theorem cancelBooking_active (b : Booking) (uid : String) (nowPub nowPriv : Int)
    (m : String) (s : Store)
    (hany : s.privateBookings.any (fun p => decide (p.1 = uid ∧ p.2.id = b.id)) = true) :
    cancelBooking (some b) true (some uid) nowPub nowPriv m s =
      ⟨⟨s.equipment,
        s.publicBookings.map (fun d =>
          if cancelKeyMatch b uid d then
            { d with status := Status.cancelled, cancelledAt := some nowPub }
          else d),
        s.privateBookings.map (fun p =>
          if decide (p.1 = uid ∧ p.2.id = b.id) then
            (p.1, { p.2 with status := Status.cancelled, cancelledAt := some nowPriv })
          else p),
        s.nextId⟩,
        "",
        Effect.queryPublicByKey b.equipmentId uid b.bookedAt ::
          ((s.publicBookings.filter (cancelKeyMatch b uid)).map
            (fun d => Effect.updatePublicCancel d.id nowPub) ++
            [Effect.updatePrivateCancel uid b.id nowPriv]),
        false⟩ := by
  simp only [cancelBooking]
  rw [if_pos hany]

theorem cancelBooking_pub_eq (b : Booking) (uid : String) (nowPub nowPriv : Int)
    (m : String) (s : Store) :
    (cancelBooking (some b) true (some uid) nowPub nowPriv m s).store.publicBookings =
      s.publicBookings.map (fun d =>
        if cancelKeyMatch b uid d then
          { d with status := Status.cancelled, cancelledAt := some nowPub }
        else d) := by
  simp only [cancelBooking]
  split <;> rfl

theorem cancelBooking_priv_cases (b : Booking) (uid : String) (nowPub nowPriv : Int)
    (m : String) (s : Store) :
    (cancelBooking (some b) true (some uid) nowPub nowPriv m s).store.privateBookings =
      s.privateBookings.map (fun p =>
        if decide (p.1 = uid ∧ p.2.id = b.id) then
          (p.1, { p.2 with status := Status.cancelled, cancelledAt := some nowPriv })
        else p) ∨
    (cancelBooking (some b) true (some uid) nowPub nowPriv m s).store.privateBookings =
      s.privateBookings := by
  simp only [cancelBooking]
  split
  · exact Or.inl rfl
  · exact Or.inr rfl

/-- C5: with the owner of the booking signed in and the private copy
present, `cancelBooking b` sets every public document sharing the
correlation key of b
`(equipmentId, userId, bookedAt)` to `status = cancelled` with a non-null
`cancelledAt`, leaves non-matching public documents untouched (so with
zero matches the public collection is unchanged and no error is raised),
and sets the private copy addressed by `b.id` to `status = cancelled` with
a non-null `cancelledAt`. -/
theorem cancel_mirrors_both_copies (b : Booking) (uid : String) (nowPub nowPriv : Int)
    (m : String) (s : Store)
    (hb : b.userId = uid)
    (hpriv : ∃ p ∈ s.privateBookings, p.1 = uid ∧ p.2.id = b.id) :
    (cancelBooking (some b) true (some uid) nowPub nowPriv m s).threw = false ∧
    (∀ d ∈ s.publicBookings,
      d.equipmentId = b.equipmentId → d.userId = b.userId → d.bookedAt = b.bookedAt →
      { d with status := Status.cancelled, cancelledAt := some nowPub } ∈
        (cancelBooking (some b) true (some uid) nowPub nowPriv m s).store.publicBookings) ∧
    (∀ d ∈ s.publicBookings,
      ¬ (d.equipmentId = b.equipmentId ∧ d.userId = b.userId ∧ d.bookedAt = b.bookedAt) →
      d ∈ (cancelBooking (some b) true (some uid) nowPub nowPriv m s).store.publicBookings) ∧
    ((∀ d ∈ s.publicBookings,
        ¬ (d.equipmentId = b.equipmentId ∧ d.userId = b.userId ∧ d.bookedAt = b.bookedAt)) →
      (cancelBooking (some b) true (some uid) nowPub nowPriv m s).store.publicBookings =
        s.publicBookings) ∧
    (∀ p ∈ s.privateBookings, p.1 = uid → p.2.id = b.id →
      (p.1, { p.2 with status := Status.cancelled, cancelledAt := some nowPriv }) ∈
        (cancelBooking (some b) true (some uid) nowPub nowPriv m s).store.privateBookings) := by
  have hany : s.privateBookings.any (fun p => decide (p.1 = uid ∧ p.2.id = b.id)) = true := by
    rcases hpriv with ⟨p, hp, h1, h2⟩
    exact List.any_eq_true.mpr ⟨p, hp, by simp [h1, h2]⟩
  refine ⟨?_, ?_, ?_, ?_, ?_⟩
  · rw [cancelBooking_active b uid nowPub nowPriv m s hany]
  · intro d hd h1 h2 h3
    rw [cancelBooking_pub_eq]
    exact List.mem_map.mpr ⟨d, hd, by simp [cancelKeyMatch, h1, h2, h3, hb]⟩
  · intro d hd hno
    rw [cancelBooking_pub_eq]
    refine List.mem_map.mpr ⟨d, hd, ?_⟩
    rw [if_neg]
    simp only [cancelKeyMatch, decide_eq_true_eq, hb.symm]
    intro hcon
    exact hno ⟨hcon.1, hcon.2.1, hcon.2.2⟩
  · intro hall
    rw [cancelBooking_pub_eq]
    have hfix : ∀ d ∈ s.publicBookings,
        (if cancelKeyMatch b uid d then
          { d with status := Status.cancelled, cancelledAt := some nowPub }
        else d) = id d := by
      intro d hd
      rw [if_neg]
      · rfl
      · simp only [cancelKeyMatch, decide_eq_true_eq, hb.symm]
        intro hcon
        exact hall d hd ⟨hcon.1, hcon.2.1, hcon.2.2⟩
    rw [List.map_congr_left hfix, List.map_id]
  · intro p hp h1 h2
    rw [cancelBooking_active b uid nowPub nowPriv m s hany]
    exact List.mem_map.mpr ⟨p, hp, by simp [h1, h2]⟩

/-- C5 witness: one public match: after cancel, both the public copy and
the private copy read back cancelled with non-null `cancelledAt`. -/
theorem cancel_mirrors_both_copies_witness :
    ((⟨⟨0, "Laser", "u", "U", 10, 20, Status.booked, 5, none⟩, 1⟩ : Booking).userId = "u" ∧
      (∃ p ∈ [("u", (⟨⟨0, "Laser", "u", "U", 10, 20, Status.booked, 5, none⟩, 1⟩ : Booking))],
        p.1 = "u" ∧ p.2.id = 1)) ∧
    (⟨⟨0, "Laser", "u", "U", 10, 20, Status.cancelled, 5, some 30⟩, 2⟩ : Booking) ∈
      (cancelBooking (some ⟨⟨0, "Laser", "u", "U", 10, 20, Status.booked, 5, none⟩, 1⟩)
        true (some "u") 30 31 ""
        ⟨[], [⟨⟨0, "Laser", "u", "U", 10, 20, Status.booked, 5, none⟩, 2⟩],
          [("u", ⟨⟨0, "Laser", "u", "U", 10, 20, Status.booked, 5, none⟩, 1⟩)], 3⟩).store.publicBookings ∧
    ("u", (⟨⟨0, "Laser", "u", "U", 10, 20, Status.cancelled, 5, some 31⟩, 1⟩ : Booking)) ∈
      (cancelBooking (some ⟨⟨0, "Laser", "u", "U", 10, 20, Status.booked, 5, none⟩, 1⟩)
        true (some "u") 30 31 ""
        ⟨[], [⟨⟨0, "Laser", "u", "U", 10, 20, Status.booked, 5, none⟩, 2⟩],
          [("u", ⟨⟨0, "Laser", "u", "U", 10, 20, Status.booked, 5, none⟩, 1⟩)], 3⟩).store.privateBookings := by
  refine ⟨⟨rfl, ⟨("u", ⟨⟨0, "Laser", "u", "U", 10, 20, Status.booked, 5, none⟩, 1⟩),
    by decide, rfl, rfl⟩⟩, ?_, ?_⟩
  · exact (cancel_mirrors_both_copies
      ⟨⟨0, "Laser", "u", "U", 10, 20, Status.booked, 5, none⟩, 1⟩ "u" 30 31 ""
      ⟨[], [⟨⟨0, "Laser", "u", "U", 10, 20, Status.booked, 5, none⟩, 2⟩],
        [("u", ⟨⟨0, "Laser", "u", "U", 10, 20, Status.booked, 5, none⟩, 1⟩)], 3⟩
      rfl
      ⟨("u", ⟨⟨0, "Laser", "u", "U", 10, 20, Status.booked, 5, none⟩, 1⟩),
        by decide, rfl, rfl⟩).2.1
      ⟨⟨0, "Laser", "u", "U", 10, 20, Status.booked, 5, none⟩, 2⟩ (by decide) rfl rfl rfl
  · exact (cancel_mirrors_both_copies
      ⟨⟨0, "Laser", "u", "U", 10, 20, Status.booked, 5, none⟩, 1⟩ "u" 30 31 ""
      ⟨[], [⟨⟨0, "Laser", "u", "U", 10, 20, Status.booked, 5, none⟩, 2⟩],
        [("u", ⟨⟨0, "Laser", "u", "U", 10, 20, Status.booked, 5, none⟩, 1⟩)], 3⟩
      rfl
      ⟨("u", ⟨⟨0, "Laser", "u", "U", 10, 20, Status.booked, 5, none⟩, 1⟩),
        by decide, rfl, rfl⟩).2.2.2.2
      ("u", ⟨⟨0, "Laser", "u", "U", 10, 20, Status.booked, 5, none⟩, 1⟩) (by decide) rfl rfl

theorem submitBooking_pub_mono (sel : Option Equipment) (db : Bool) (userId : Option String)
    (udn : String) (st en now nowB : Int) (m : String) (s : Store) (d : Booking)
    (hd : d ∈ s.publicBookings) :
    d ∈ (submitBooking sel db userId udn st en now nowB m s).store.publicBookings := by
  rcases sel with _ | eqp
  · exact hd
  · rcases db
    · exact hd
    · rcases userId with _ | u
      · exact hd
      · simp only [submitBooking]
        split_ifs <;> first | exact hd | exact List.mem_append_left _ hd

theorem submitBooking_priv_mono (sel : Option Equipment) (db : Bool) (userId : Option String)
    (udn : String) (st en now nowB : Int) (m : String) (s : Store) (q : String × Booking)
    (hq : q ∈ s.privateBookings) :
    q ∈ (submitBooking sel db userId udn st en now nowB m s).store.privateBookings := by
  rcases sel with _ | eqp
  · exact hq
  · rcases db
    · exact hq
    · rcases userId with _ | u
      · exact hq
      · simp only [submitBooking]
        split_ifs <;> first | exact hq | exact List.mem_append_left _ hq

theorem cancelBooking_pub_preserved (bc : Option Booking) (db : Bool) (userId : Option String)
    (nowPub nowPriv : Int) (m : String) (s : Store) (d : Booking)
    (hd : d ∈ s.publicBookings) (hc : d.status = Status.cancelled) :
    ∃ d' ∈ (cancelBooking bc db userId nowPub nowPriv m s).store.publicBookings,
      d'.id = d.id ∧ d'.status = Status.cancelled := by
  rcases bc with _ | b
  · exact ⟨d, hd, rfl, hc⟩
  · rcases db
    · exact ⟨d, hd, rfl, hc⟩
    · rcases userId with _ | u
      · exact ⟨d, hd, rfl, hc⟩
      · rw [cancelBooking_pub_eq]
        by_cases hm : cancelKeyMatch b u d = true
        · exact ⟨{ d with status := Status.cancelled, cancelledAt := some nowPub },
            List.mem_map.mpr ⟨d, hd, by rw [if_pos hm]⟩, rfl, rfl⟩
        · exact ⟨d, List.mem_map.mpr ⟨d, hd, by rw [if_neg hm]⟩, rfl, hc⟩

theorem cancelBooking_priv_preserved (bc : Option Booking) (db : Bool) (userId : Option String)
    (nowPub nowPriv : Int) (m : String) (s : Store) (q : String × Booking)
    (hq : q ∈ s.privateBookings) (hc : q.2.status = Status.cancelled) :
    ∃ q' ∈ (cancelBooking bc db userId nowPub nowPriv m s).store.privateBookings,
      q'.1 = q.1 ∧ q'.2.id = q.2.id ∧ q'.2.status = Status.cancelled := by
  rcases bc with _ | b
  · exact ⟨q, hq, rfl, rfl, hc⟩
  · rcases db
    · exact ⟨q, hq, rfl, rfl, hc⟩
    · rcases userId with _ | u
      · exact ⟨q, hq, rfl, rfl, hc⟩
      · rcases cancelBooking_priv_cases b u nowPub nowPriv m s with he | he
        · rw [he]
          by_cases hm : (decide (q.1 = u ∧ q.2.id = b.id)) = true
          · exact ⟨(q.1, { q.2 with status := Status.cancelled, cancelledAt := some nowPriv }),
              List.mem_map.mpr ⟨q, hq, by rw [if_pos hm]⟩, rfl, rfl, rfl⟩
          · exact ⟨q, List.mem_map.mpr ⟨q, hq, by rw [if_neg hm]⟩, rfl, rfl, hc⟩
        · rw [he]
          exact ⟨q, hq, rfl, rfl, hc⟩

theorem addEquipment_bookings (db isAdmin : Bool) (n d : String) (now : Int)
    (m : String) (s : Store) :
    (addEquipment db isAdmin n d now m s).store.publicBookings = s.publicBookings ∧
    (addEquipment db isAdmin n d now m s).store.privateBookings = s.privateBookings := by
  unfold addEquipment
  split <;> exact ⟨rfl, rfl⟩

theorem updateEquipment_bookings (db isAdmin : Bool) (e : Option Equipment) (n d : String)
    (now : Int) (m : String) (s : Store) :
    (updateEquipment db isAdmin e n d now m s).store.publicBookings = s.publicBookings ∧
    (updateEquipment db isAdmin e n d now m s).store.privateBookings = s.privateBookings := by
  rcases e with _ | x
  · exact ⟨rfl, rfl⟩
  · rcases db
    · exact ⟨rfl, rfl⟩
    · rcases isAdmin
      · exact ⟨rfl, rfl⟩
      · simp only [updateEquipment]
        split <;> exact ⟨rfl, rfl⟩

theorem deleteEquipment_bookings (db isAdmin : Bool) (e : Option Equipment)
    (m : String) (s : Store) :
    (deleteEquipment db isAdmin e m s).store.publicBookings = s.publicBookings ∧
    (deleteEquipment db isAdmin e m s).store.privateBookings = s.privateBookings := by
  rcases e with _ | x
  · exact ⟨rfl, rfl⟩
  · rcases db
    · exact ⟨rfl, rfl⟩
    · rcases isAdmin
      · exact ⟨rfl, rfl⟩
      · exact ⟨rfl, rfl⟩

/-- C6: a second `cancelBooking` on a booking whose two copies are already
cancelled does not throw (the private copy is still present, so the
awaited private update succeeds) and re-applies the updates harmlessly:
afterwards the private copy and every key-matching public copy still read
`status = cancelled`; moreover no operation of the app ever turns a
cancelled booking document (public or private) back to `booked`. -/
theorem cancel_idempotent_never_rebooked :
    (∀ (b : Booking) (uid : String) (nowPub nowPriv : Int) (m : String) (s : Store),
      (∃ p ∈ s.privateBookings, p.1 = uid ∧ p.2.id = b.id) →
      (cancelBooking (some b) true (some uid) nowPub nowPriv m s).threw = false ∧
      (∀ q ∈ (cancelBooking (some b) true (some uid) nowPub nowPriv m s).store.privateBookings,
        q.1 = uid → q.2.id = b.id → q.2.status = Status.cancelled) ∧
      (∀ d ∈ s.publicBookings, d.status = Status.cancelled →
        ∃ d' ∈ (cancelBooking (some b) true (some uid) nowPub nowPriv m s).store.publicBookings,
          d'.id = d.id ∧ d'.status = Status.cancelled)) ∧
    (∀ (op : Op) (s : AppState), ∀ d ∈ s.store.publicBookings, d.status = Status.cancelled →
      ∃ d' ∈ (applyOp op s).store.publicBookings, d'.id = d.id ∧ d'.status = Status.cancelled) ∧
    (∀ (op : Op) (s : AppState), ∀ q ∈ s.store.privateBookings, q.2.status = Status.cancelled →
      ∃ q' ∈ (applyOp op s).store.privateBookings,
        q'.1 = q.1 ∧ q'.2.id = q.2.id ∧ q'.2.status = Status.cancelled) := by
  refine ⟨?_, ?_, ?_⟩
  · intro b uid nowPub nowPriv m s hpriv
    have hany : s.privateBookings.any (fun p => decide (p.1 = uid ∧ p.2.id = b.id)) = true := by
      rcases hpriv with ⟨p, hp, h1, h2⟩
      exact List.any_eq_true.mpr ⟨p, hp, by simp [h1, h2]⟩
    refine ⟨by rw [cancelBooking_active b uid nowPub nowPriv m s hany], ?_, ?_⟩
    · intro q hq h1 h2
      rw [cancelBooking_active b uid nowPub nowPriv m s hany] at hq
      rcases List.mem_map.mp hq with ⟨p, hp, rfl⟩
      by_cases hcond : (p.1 = uid ∧ p.2.id = b.id)
      · simp [hcond]
      · rw [if_neg (by simpa using hcond)] at h1 h2 ⊢
        exact absurd ⟨h1, h2⟩ hcond
    · intro d hd hc
      exact cancelBooking_pub_preserved (some b) true (some uid) nowPub nowPriv m s d hd hc
  · intro op s d hd hc
    cases op with
    | submit sel st en now nowB =>
      exact ⟨d, submitBooking_pub_mono sel s.db s.userId s.userDisplayName st en now nowB
        s.message s.store d hd, rfl, hc⟩
    | cancel b nowPub nowPriv =>
      exact cancelBooking_pub_preserved b s.db s.userId nowPub nowPriv s.message s.store d hd hc
    | addEquip n de now =>
      exact ⟨d, by rw [show (applyOp (Op.addEquip n de now) s).store.publicBookings = _ from
        (addEquipment_bookings s.db s.isAdmin n de now s.message s.store).1]; exact hd, rfl, hc⟩
    | updateEquip e n de now =>
      exact ⟨d, by rw [show (applyOp (Op.updateEquip e n de now) s).store.publicBookings = _ from
        (updateEquipment_bookings s.db s.isAdmin e n de now s.message s.store).1]; exact hd, rfl, hc⟩
    | deleteEquip e =>
      exact ⟨d, by rw [show (applyOp (Op.deleteEquip e) s).store.publicBookings = _ from
        (deleteEquipment_bookings s.db s.isAdmin e s.message s.store).1]; exact hd, rfl, hc⟩
    | toggleAdminPanel =>
      simp only [applyOp]
      split <;> exact ⟨d, hd, rfl, hc⟩
    | authChange u =>
      rcases u with _ | ⟨uid, name⟩ <;> exact ⟨d, hd, rfl, hc⟩
  · intro op s q hq hc
    cases op with
    | submit sel st en now nowB =>
      exact ⟨q, submitBooking_priv_mono sel s.db s.userId s.userDisplayName st en now nowB
        s.message s.store q hq, rfl, rfl, hc⟩
    | cancel b nowPub nowPriv =>
      exact cancelBooking_priv_preserved b s.db s.userId nowPub nowPriv s.message s.store q hq hc
    | addEquip n de now =>
      exact ⟨q, by rw [show (applyOp (Op.addEquip n de now) s).store.privateBookings = _ from
        (addEquipment_bookings s.db s.isAdmin n de now s.message s.store).2]; exact hq, rfl, rfl, hc⟩
    | updateEquip e n de now =>
      exact ⟨q, by rw [show (applyOp (Op.updateEquip e n de now) s).store.privateBookings = _ from
        (updateEquipment_bookings s.db s.isAdmin e n de now s.message s.store).2]; exact hq, rfl, rfl, hc⟩
    | deleteEquip e =>
      exact ⟨q, by rw [show (applyOp (Op.deleteEquip e) s).store.privateBookings = _ from
        (deleteEquipment_bookings s.db s.isAdmin e s.message s.store).2]; exact hq, rfl, rfl, hc⟩
    | toggleAdminPanel =>
      simp only [applyOp]
      split <;> exact ⟨q, hq, rfl, rfl, hc⟩
    | authChange u =>
      rcases u with _ | ⟨uid, name⟩ <;> exact ⟨q, hq, rfl, rfl, hc⟩

/-- C6 witness: cancelling an already-cancelled concrete booking again
does not throw and its private copy still reads cancelled. -/
theorem cancel_idempotent_never_rebooked_witness :
    (∃ p ∈ [("u", (⟨⟨0, "Laser", "u", "U", 10, 20, Status.cancelled, 5, some 30⟩, 1⟩ : Booking))],
      p.1 = "u" ∧ p.2.id = 1) ∧
    (cancelBooking (some ⟨⟨0, "Laser", "u", "U", 10, 20, Status.cancelled, 5, some 30⟩, 1⟩)
      true (some "u") 40 41 ""
      ⟨[], [⟨⟨0, "Laser", "u", "U", 10, 20, Status.cancelled, 5, some 30⟩, 2⟩],
        [("u", ⟨⟨0, "Laser", "u", "U", 10, 20, Status.cancelled, 5, some 30⟩, 1⟩)], 3⟩).threw =
      false ∧
    (∀ q ∈ (cancelBooking
        (some ⟨⟨0, "Laser", "u", "U", 10, 20, Status.cancelled, 5, some 30⟩, 1⟩)
        true (some "u") 40 41 ""
        ⟨[], [⟨⟨0, "Laser", "u", "U", 10, 20, Status.cancelled, 5, some 30⟩, 2⟩],
          [("u", ⟨⟨0, "Laser", "u", "U", 10, 20, Status.cancelled, 5, some 30⟩, 1⟩)],
          3⟩).store.privateBookings,
      q.1 = "u" → q.2.id = 1 → q.2.status = Status.cancelled) := by
  refine ⟨⟨("u", ⟨⟨0, "Laser", "u", "U", 10, 20, Status.cancelled, 5, some 30⟩, 1⟩),
    by decide, rfl, rfl⟩, ?_⟩
  have h := (cancel_idempotent_never_rebooked.1
    ⟨⟨0, "Laser", "u", "U", 10, 20, Status.cancelled, 5, some 30⟩, 1⟩ "u" 40 41 ""
    ⟨[], [⟨⟨0, "Laser", "u", "U", 10, 20, Status.cancelled, 5, some 30⟩, 2⟩],
      [("u", ⟨⟨0, "Laser", "u", "U", 10, 20, Status.cancelled, 5, some 30⟩, 1⟩)], 3⟩
    ⟨("u", ⟨⟨0, "Laser", "u", "U", 10, 20, Status.cancelled, 5, some 30⟩, 1⟩),
      by decide, rfl, rfl⟩)
  exact ⟨h.1, h.2.1⟩

theorem conflictExists_false_iff (s : Store) (eqId : Nat) (st en : Int) :
    conflictExists s eqId st en = false ↔
      ∀ d ∈ s.publicBookings, d.equipmentId = eqId → d.status = Status.booked →
        ¬ (st < d.endDate ∧ en > d.startDate) := by
  simp only [conflictExists, bookedQuery, List.any_eq_false, List.mem_filter,
    decide_eq_true_eq]
  constructor
  · intro h d hd he hs hov
    exact h d ⟨hd, he, hs⟩ hov
  · rintro h d ⟨hd, he, hs⟩ hov
    exact h d hd he hs hov

theorem submitBooking_preserves_noOverlap (sel : Option Equipment) (db : Bool)
    (userId : Option String) (udn : String) (st en now nowB : Int) (m : String) (s : Store)
    (h : NoOverlapInv s.publicBookings) :
    NoOverlapInv (submitBooking sel db userId udn st en now nowB m s).store.publicBookings := by
  rcases sel with _ | eqp
  · exact h
  · rcases db
    · exact h
    · rcases userId with _ | u
      · exact h
      · simp only [submitBooking]
        split_ifs with h1 h2 h3
        · exact h
        · exact h
        · exact h
        · have hlt : st < en := by omega
          have hc := (conflictExists_false_iff s eqp.id st en).mp (by simpa using h3)
          intro a ha b hb hne heq hsa hsb
          rcases List.mem_append.mp ha with ha' | ha' <;>
            rcases List.mem_append.mp hb with hb' | hb'
          · exact h a ha' b hb' hne heq hsa hsb
          · have hbnew := List.mem_singleton.mp hb'
            subst hbnew
            have haeq : a.equipmentId = eqp.id := heq
            have hna := hc a ha' haeq hsa
            intro hov
            rcases hov with ⟨o1, o2⟩
            exact hna ⟨by exact_mod_cast o2, by exact_mod_cast o1⟩
          · have hanew := List.mem_singleton.mp ha'
            subst hanew
            have hbeq : b.equipmentId = eqp.id := heq.symm
            have hnb := hc b hb' hbeq hsb
            intro hov
            exact hnb ⟨hov.1, hov.2⟩
          · have hanew := List.mem_singleton.mp ha'
            have hbnew := List.mem_singleton.mp hb'
            exact absurd (hanew.trans hbnew.symm) hne

/-- C1: starting from any store whose `booked` public bookings are
pairwise non-overlapping per equipment, after any sequence of
`submitBooking` calls run to completion one after another, every pair of
distinct `booked` bookings on the same equipment still satisfies
`not (a.startDate < b.endDate and a.endDate > b.startDate)`. -/
theorem submit_sequence_preserves_no_overlap (argsList : List SubmitArgs) (s : Store)
    (h : NoOverlapInv s.publicBookings) :
    NoOverlapInv (submitSeq argsList s).publicBookings := by
  induction argsList generalizing s with
  | nil => exact h
  | cons a rest ih =>
    exact ih _ (submitBooking_preserves_noOverlap a.selectedEquipment a.db a.userId
      a.userDisplayName a.startDateTime a.endDateTime a.now a.nowB a.msg0 s h)

/-- C1 witness: two overlapping submissions in sequence on the empty
store; the invariant holds afterwards (the second is rejected by the
conflict check). -/
theorem submit_sequence_preserves_no_overlap_witness :
    NoOverlapInv emptyStore.publicBookings ∧
    NoOverlapInv (submitSeq
      [⟨some ⟨0, "Laser", "d", none, none⟩, true, some "u", "U", 10, 20, 0, 1, ""⟩,
       ⟨some ⟨0, "Laser", "d", none, none⟩, true, some "v", "V", 15, 25, 0, 2, ""⟩]
      emptyStore).publicBookings :=
  ⟨by decide,
    submit_sequence_preserves_no_overlap
      [⟨some ⟨0, "Laser", "d", none, none⟩, true, some "u", "U", 10, 20, 0, 1, ""⟩,
       ⟨some ⟨0, "Laser", "d", none, none⟩, true, some "v", "V", 15, 25, 0, 2, ""⟩]
      emptyStore (by decide)⟩

end CMF
